import Mathlib

set_option maxRecDepth 40000

/-!
# Verification of the KJPP job monitor (`monitor_kjpp_jobs_telegram.py`)

Shallow embedding of the extraction / classification / novelty pipeline of
the monitor script, together with proofs of the specified properties.

Conventions of the embedding:
* Python strings are Lean `String`s (both are sequences of Unicode code
  points; Python slicing `s[:n]` is `String.take`).
* Machine-free text processing is modelled directly; network fetches are
  modelled by oracle functions passed in as parameters (the script is
  single-threaded and each fetch is a pure request/response exchange from
  the pipeline's point of view).
* Python `re` search over the script's two compiled pattern unions is
  modelled by a small total regex interpreter covering exactly the
  constructs those patterns use: literals, `-?`/`n?` single optional
  characters, `\s*`, `.*` (not matching a newline), `\b` word boundaries
  and alternation.  Word characters and lower-casing cover ASCII plus the
  Latin-1 letters (the German umlauts appearing in the patterns).
-/

namespace KJPP

/-! ## Character classes (Python `re` semantics restricted to Latin-1 text) -/

/-- Word character for `\b`: ASCII alphanumerics, underscore, and the
Latin-1 letters (in particular `ä ö ü ß`), as in Python's Unicode `\w`. -/
def isWordChar (c : Char) : Bool :=
  let n := c.toNat
  (48 ≤ n && n ≤ 57) || (65 ≤ n && n ≤ 90) || (97 ≤ n && n ≤ 122) ||
  (n == 95) || (192 ≤ n && n ≤ 255 && n != 215 && n != 247)

/-- Whitespace for `\s`: ASCII whitespace plus no-break space. -/
def isSpacePy (c : Char) : Bool :=
  let n := c.toNat
  (n == 32) || (9 ≤ n && n ≤ 13) || (n == 160)

/-- `.` in a pattern without `re.DOTALL`: any character except newline. -/
def isDot (c : Char) : Bool := c.toNat != 10

/-- Python `str.lower` restricted to ASCII and Latin-1 letters:
`A`–`Z` and `À`–`Þ` (excluding `×`) map down by 32. -/
def pyLowerChar (c : Char) : Char :=
  let n := c.toNat
  if 65 ≤ n && n ≤ 90 then Char.ofNat (n + 32)
  else if 192 ≤ n && n ≤ 222 && n != 215 then Char.ofNat (n + 32)
  else c

def pyLower (s : String) : String := String.mk (s.data.map pyLowerChar)

/-! ## A total regex interpreter for the script's pattern unions -/

/-- Regex syntax: exactly the constructs used by `KEYWORDS` and
`STRICT_KJPP_PATTERNS` in the script. -/
inductive Rx where
  | fail : Rx
  | eps : Rx
  | lit : List Char → Rx
  | opt : Char → Rx
  | clsStar : (Char → Bool) → Rx
  | wordB : Rx
  | seq : Rx → Rx → Rx
  | alt : Rx → Rx → Rx

/-- Matcher state: the character just before the current position (for
`\b`), and the remaining input. -/
abbrev MState := Option Char × List Char

/-- Is the current position a word boundary? -/
def atBoundary (p : Option Char) (rest : List Char) : Bool :=
  let pw := match p with | some c => isWordChar c | none => false
  let nw := match rest with | c :: _ => isWordChar c | [] => false
  pw != nw

/-- Consume a literal character sequence. -/
def litMatch : List Char → MState → Option MState
  | [], s => some s
  | _ :: _, (_, []) => none
  | c :: cs, (_, c' :: r) => if c' = c then litMatch cs (some c', r) else none

/-- All states reachable by consuming a (possibly empty) run of characters
satisfying `q` — the expansions of `q*`. -/
def starStatesGo (q : Char → Bool) (p : Option Char) : List Char → List MState
  | [] => [(p, [])]
  | c :: rest =>
      (p, c :: rest) :: (if q c then starStatesGo q (some c) rest else [])

def starStates (q : Char → Bool) (s : MState) : List MState :=
  starStatesGo q s.1 s.2

/-- All states reachable after matching `r` from state `s`. -/
def mtch : Rx → MState → List MState
  | .fail, _ => []
  | .eps, s => [s]
  | .lit cs, s => (litMatch cs s).toList
  | .opt c, (p, rest) =>
      (p, rest) :: (match rest with
        | c' :: r => if c' = c then [(some c', r)] else []
        | [] => [])
  | .clsStar q, s => starStates q s
  | .wordB, (p, rest) => if atBoundary p rest then [(p, rest)] else []
  | .seq a b, s => (mtch a s).flatMap (mtch b)
  | .alt a b, s => mtch a s ++ mtch b s

/-- Does `r` match starting at some position of the input, scanning from a
state whose previous character is `p`?  (Python `re.search`.) -/
def searchFrom (r : Rx) : Option Char → List Char → Bool
  | p, [] => !(mtch r (p, [])).isEmpty
  | p, c :: rest => !(mtch r (p, c :: rest)).isEmpty || searchFrom r (some c) rest

/-- `bool(RE.search(s))` for the embedded pattern `r`. -/
def rsearch (r : Rx) (s : String) : Bool := searchFrom r none s.data

/-! ## The two pattern unions of the script -/

def rlit (s : String) : Rx := Rx.lit s.data

def rseq (l : List Rx) : Rx := l.foldr Rx.seq Rx.eps

def ralt (l : List Rx) : Rx := l.foldr Rx.alt Rx.fail

/-- `.*` — any run of non-newline characters. -/
def anyStar : Rx := Rx.clsStar isDot

/-- `\s*` — any run of whitespace. -/
def wsStar : Rx := Rx.clsStar isSpacePy

/-- The `KEYWORDS` pattern union (`KEYWORDS_RE`). -/
def KEYWORDS_RE : Rx := ralt [
  rseq [rlit "kinder", Rx.opt '-', wsStar, rlit "und", Rx.opt '-', wsStar,
        rlit "jugendpsychi"],
  rseq [rlit "kinder", Rx.opt '-', wsStar, rlit "und", Rx.opt '-', wsStar,
        rlit "jugendpsychother"],
  rseq [Rx.wordB, rlit "kjpp", Rx.wordB],
  rseq [Rx.wordB, rlit "kjp", Rx.wordB],
  rlit "jugendpsychiatr",
  rlit "kinderpsychiatr",
  rseq [rlit "kinder", Rx.opt '-', rlit "jugend", Rx.opt '-', rlit "psych"]]

/-- The `STRICT_KJPP_PATTERNS` union (`STRICT_KJPP_RE`). -/
def STRICT_KJPP_RE : Rx := ralt [
  rseq [Rx.wordB, rlit "facharzt", Rx.wordB, anyStar, rlit "kinder",
        anyStar, rlit "jugendpsychiatr"],
  rseq [Rx.wordB, rlit "oberarzt", Rx.wordB, anyStar, rlit "kinder",
        anyStar, rlit "jugendpsychiatr"],
  rseq [Rx.wordB, rlit "assistenzarzt", Rx.wordB, anyStar, rlit "kinder",
        anyStar, rlit "jugendpsychiatr"],
  rseq [Rx.wordB, rlit "weiterbildungsassistent", Rx.wordB, anyStar,
        rlit "kinder", anyStar, rlit "jugendpsychiatr"],
  rseq [Rx.wordB, rlit "ärzti", Rx.opt 'n', Rx.wordB, anyStar, rlit "kinder",
        anyStar, rlit "jugendpsychiatr"],
  rseq [Rx.wordB, rlit "arzt", Rx.wordB, anyStar, rlit "kinder",
        anyStar, rlit "jugendpsychiatr"],
  rseq [Rx.wordB, ralt [rlit "w", rlit "weiterbildung"], anyStar,
        rseq [rlit "kinder", anyStar, rlit "jugendpsychiatr"]],
  rseq [Rx.wordB, rlit "kinder", Rx.opt '-', wsStar, rlit "und", Rx.opt '-',
        wsStar, rlit "jugendpsychiatr", anyStar,
        ralt [rlit "arzt", rlit "ärztin", rlit "facharzt", rlit "oberarzt",
              rlit "assistenzarzt"]]]

/-! ## Classifier (`classify_hit`) -/

/-- `classify_hit(title, url)`: lower-case `f"{title or ''} {url}"`, then
first match wins: strict pattern → `"KJPP"`, keyword pattern →
`"RELATED"`, otherwise `"OTHER"`. -/
def classify_hit (title url : String) : String :=
  let text := pyLower (title ++ " " ++ url)
  if rsearch STRICT_KJPP_RE text then "KJPP"
  else if rsearch KEYWORDS_RE text then "RELATED"
  else "OTHER"

/-! ## The specification's exclusion condition (not present in the code) -/

/-- Modelled from the spec: the denylist of administrative noise terms of
the exclusion check.  The code has no such denylist; the spec names
`niederlassung` as a noise term, which is the fixture used here. -/
def spec_noise_terms : List String := ["niederlassung"]

/-- Python's `w in text` substring test. -/
def containsSub (w : List Char) : List Char → Bool
  | [] => w.isEmpty
  | c :: rest => w.isPrefixOf (c :: rest) || containsSub w rest

/-- Modelled from the spec: the exclusion condition — the combined
lower-cased text matches a denylist term.  (The spec's second disjunct, a
minimum title length, names no threshold and is not needed below.) -/
def spec_excluded (title url : String) : Bool :=
  spec_noise_terms.any
    (fun w => containsSub w.data (pyLower (title ++ " " ++ url)).data)

/-! ## SHA-256 (for `make_id`, which truncates the hex digest to 24 chars) -/

/-- UTF-8 encoding of one code point (Python `str.encode("utf-8")`). -/
def utf8Bytes (c : Char) : List Nat :=
  let n := c.toNat
  if n < 128 then [n]
  else if n < 2048 then [192 + n / 64, 128 + n % 64]
  else if n < 65536 then [224 + n / 4096, 128 + (n / 64) % 64, 128 + n % 64]
  else [240 + n / 262144, 128 + (n / 4096) % 64, 128 + (n / 64) % 64,
        128 + n % 64]

def strBytes (s : String) : List Nat := s.data.flatMap utf8Bytes

def M32 : Nat := 4294967296

def rotr (n x : Nat) : Nat := ((x >>> n) ||| (x <<< (32 - n))) % M32

def shr (n x : Nat) : Nat := x >>> n

def add32 (a b : Nat) : Nat := (a + b) % M32

def bnot32 (x : Nat) : Nat := Nat.xor x (M32 - 1)

def shaCh (x y z : Nat) : Nat :=
  Nat.xor (Nat.land x y) (Nat.land (bnot32 x) z)

def shaMaj (x y z : Nat) : Nat :=
  Nat.xor (Nat.xor (Nat.land x y) (Nat.land x z)) (Nat.land y z)

def bigSigma0 (x : Nat) : Nat := Nat.xor (Nat.xor (rotr 2 x) (rotr 13 x)) (rotr 22 x)

def bigSigma1 (x : Nat) : Nat := Nat.xor (Nat.xor (rotr 6 x) (rotr 11 x)) (rotr 25 x)

def smallSigma0 (x : Nat) : Nat := Nat.xor (Nat.xor (rotr 7 x) (rotr 18 x)) (shr 3 x)

def smallSigma1 (x : Nat) : Nat := Nat.xor (Nat.xor (rotr 17 x) (rotr 19 x)) (shr 10 x)

def shaK : List Nat := [
  1116352408, 1899447441, 3049323471, 3921009573, 961987163,
  1508970993, 2453635748, 2870763221, 3624381080, 310598401,
  607225278, 1426881987, 1925078388, 2162078206, 2614888103,
  3248222580, 3835390401, 4022224774, 264347078, 604807628,
  770255983, 1249150122, 1555081692, 1996064986, 2554220882,
  2821834349, 2952996808, 3210313671, 3336571891, 3584528711,
  113926993, 338241895, 666307205, 773529912, 1294757372,
  1396182291, 1695183700, 1986661051, 2177026350, 2456956037,
  2730485921, 2820302411, 3259730800, 3345764771, 3516065817,
  3600352804, 4094571909, 275423344, 430227734, 506948616,
  659060556, 883997877, 958139571, 1322822218, 1537002063,
  1747873779, 1955562222, 2024104815, 2227730452, 2361852424,
  2428436474, 2756734187, 3204031479, 3329325298]

def shaH0 : List Nat := [
  1779033703, 3144134277, 1013904242, 2773480762,
  1359893119, 2600822924, 528734635, 1541459225]

/-- Big-endian 8-byte encoding. -/
def be64 (n : Nat) : List Nat :=
  [(n >>> 56) % 256, (n >>> 48) % 256, (n >>> 40) % 256, (n >>> 32) % 256,
   (n >>> 24) % 256, (n >>> 16) % 256, (n >>> 8) % 256, n % 256]

/-- SHA-256 padding: `0x80`, zeros to 56 mod 64, then the bit length. -/
def shaPad (msg : List Nat) : List Nat :=
  let l := msg.length
  let zeros := (119 - l % 64) % 64
  msg ++ 128 :: List.replicate zeros 0 ++ be64 (l * 8)

/-- Split padded bytes into 64-byte blocks of sixteen 32-bit words. -/
def toWords : List Nat → List Nat
  | b0 :: b1 :: b2 :: b3 :: rest =>
      (((b0 * 256 + b1) * 256 + b2) * 256 + b3) :: toWords rest
  | _ => []

def toBlocks : List Nat → List (List Nat)
  | [] => []
  | w0 :: w1 :: w2 :: w3 :: w4 :: w5 :: w6 :: w7 ::
    w8 :: w9 :: w10 :: w11 :: w12 :: w13 :: w14 :: w15 :: rest =>
      [w0, w1, w2, w3, w4, w5, w6, w7,
       w8, w9, w10, w11, w12, w13, w14, w15] :: toBlocks rest
  | l => [l]

/-- Message schedule: extend sixteen words to sixty-four. -/
def schedExtend (w : List Nat) : Nat → List Nat
  | 0 => w
  | k + 1 =>
      let w' := schedExtend w k
      let i := w'.length
      w' ++ [(smallSigma1 (w'.getD (i - 2) 0) + w'.getD (i - 7) 0 +
              smallSigma0 (w'.getD (i - 15) 0) + w'.getD (i - 16) 0) % M32]

def schedule (block : List Nat) : List Nat := schedExtend block 48

/-- One compression round. -/
def shaRound (kt wt : Nat) : List Nat → List Nat
  | [a, b, c, d, e, f, g, h] =>
      let t1 := (h + bigSigma1 e + shaCh e f g + kt + wt) % M32
      let t2 := (bigSigma0 a + shaMaj a b c) % M32
      [(t1 + t2) % M32, a, b, c, (d + t1) % M32, e, f, g]
  | s => s

def shaRounds : List (Nat × Nat) → List Nat → List Nat
  | [], st => st
  | (kt, wt) :: rest, st => shaRounds rest (shaRound kt wt st)

/-- Compress one block into the running hash value. -/
def shaCompress (h : List Nat) (block : List Nat) : List Nat :=
  let st := shaRounds (shaK.zip (schedule block)) h
  (h.zip st).map (fun p => (p.1 + p.2) % M32)

def shaHash (msg : List Nat) : List Nat :=
  (toBlocks (toWords (shaPad msg))).foldl shaCompress shaH0

def hexDigit (n : Nat) : Char :=
  if n < 10 then Char.ofNat (48 + n) else Char.ofNat (87 + n)

/-- Eight lowercase hex digits of a 32-bit word. -/
def hex8 (n : Nat) : List Char :=
  [hexDigit ((n >>> 28) % 16), hexDigit ((n >>> 24) % 16),
   hexDigit ((n >>> 20) % 16), hexDigit ((n >>> 16) % 16),
   hexDigit ((n >>> 12) % 16), hexDigit ((n >>> 8) % 16),
   hexDigit ((n >>> 4) % 16), hexDigit (n % 16)]

/-- `hashlib.sha256(bytes).hexdigest()`. -/
def sha256hex (msg : List Nat) : String :=
  String.mk ((shaHash msg).flatMap hex8)

/-- `make_id(url, title)`: first 24 hex chars of
`sha256((url + "|" + title).encode("utf-8"))`. -/
def make_id (url title : String) : String :=
  (sha256hex (strBytes (url ++ "|" ++ title))).take 24

/-! ## Candidates and per-source deduplication (`parse_kvboerse_search`) -/

/-- A candidate job posting as produced by the extractors: a dict with
`href` and `title` (the `source` tag is diagnostic only and never read by
the pipeline, so it is omitted from the embedding). -/
structure Item where
  href : String
  title : String
deriving DecidableEq, Repr

/-- The deduplication key: `item["href"] + "|" + item["title"][:100]`. -/
def dedupKey (it : Item) : String := it.href ++ "|" ++ it.title.take 100

/-- The dedup loop of `parse_kvboerse_search` / `parse_generic_portal`:
a `seen` set of keys, keeping the first item for each key. -/
def dedupGo (seen : List String) : List Item → List Item
  | [] => []
  | it :: rest =>
      if dedupKey it ∈ seen then dedupGo seen rest
      else it :: dedupGo (dedupKey it :: seen) rest

def dedup (items : List Item) : List Item := dedupGo [] items

/-! ## The paginated crawl loop of `parse_kvboerse_search` -/

/-- What one iteration of the crawl loop observes for a URL: `none` models
an exception raised while fetching/parsing the page; otherwise the items
extracted from the page and the next-page link discovered by
`find_next_page` (`none` = no next link, falsy link). -/
structure PageResult where
  items : List Item
  next : Option String

/-- The `while current_url and pages_scanned < max_pages` loop.  Returns
the accumulated `all_items` and the final `pages_scanned` count.  The
counter is incremented on loop entry, before the fetch, so a page whose
fetch raises still counts as scanned. -/
def crawlLoop (site : String → Option PageResult) : Nat → String → List Item × Nat
  | 0, _ => ([], 0)
  | fuel + 1, url =>
      match site url with
      | none => ([], 1)
      | some pg =>
          match pg.next with
          | some nxt =>
              if nxt ≠ url then
                let r := crawlLoop site fuel nxt
                (pg.items ++ r.1, r.2 + 1)
              else (pg.items, 1)
          | none => (pg.items, 1)

/-- `parse_kvboerse_search(url, max_pages)` over a page oracle `site`:
crawl, then deduplicate. -/
def parse_kvboerse_search (site : String → Option PageResult)
    (url : String) (max_pages : Nat) : List Item :=
  dedup (crawlLoop site max_pages url).1

def MAX_PAGES : Nat := 10

/-! ## The run loop (`run_once`) -/

/-- The novelty state: the JSON object of `state.json`, a mapping from
24-hex-char identity to first-seen timestamp, in insertion order. -/
abbrev NState := List (String × Nat)

/-- Python `state[uid]` / `uid in state` (first binding wins; a JSON
object has distinct keys, and the run only ever adds fresh keys). -/
def stLookup : NState → String → Option Nat
  | [], _ => none
  | (k', v) :: rest, k => if k' = k then some v else stLookup rest k

/-- The classification-and-filter step of `run_once`: keep candidates whose
class is `KJPP` or `RELATED`, remembering the class (`c["cls"] = cls`). -/
def classifyFilter (cands : List Item) : List (Item × String) :=
  cands.filterMap (fun c =>
    if classify_hit c.title c.href = "KJPP" ∨ classify_hit c.title c.href = "RELATED"
    then some (c, classify_hit c.title c.href) else none)

/-- `prio = 0 if label == "KJPP" else 1`. -/
def prioOf (label : String) : Nat := if label = "KJPP" then 0 else 1

/-- `f"• [{label}] {title}\n  {href}"` (the `c.get('title','(ohne Titel)')`
default never fires: every extractor stores a `title` key). -/
def fmtLine (label : String) (c : Item) : String :=
  "• [" ++ label ++ "] " ++ c.title ++ "\n  " ++ c.href

/-- The `all_items` lines contributed by one source. -/
def allLines (filtered : List (Item × String)) : List (Nat × String) :=
  filtered.map (fun p => (prioOf p.2, fmtLine p.2 p.1))

/-- The new-item loop of one source: for each filtered candidate whose
`make_id` is not yet in the state, record it (`state[uid] = time.time()`)
and emit its line. -/
def newPass (now : Nat) : NState → List (Item × String) → List (Nat × String) × NState
  | st, [] => ([], st)
  | st, (c, label) :: rest =>
      let uid := make_id c.href c.title
      if stLookup st uid = none then
        let r := newPass now (st ++ [(uid, now)]) rest
        ((prioOf label, fmtLine label c) :: r.1, r.2)
      else newPass now st rest

/-- Processing of the full URL list: each source contributes its filtered
candidates' lines to `all_items`, then its fresh identities to
`new_items`, threading the state. -/
def runSources (now : Nat) :
    NState → List (List Item) → List (Nat × String) × List (Nat × String) × NState
  | st, [] => ([], [], st)
  | st, cands :: rest =>
      let filtered := classifyFilter cands
      let np := newPass now st filtered
      let r := runSources now np.2 rest
      (allLines filtered ++ r.1, np.1 ++ r.2.1, r.2.2)

/-- Stable insertion: place `x` before the first element of strictly or
equally large priority (elements already in the list that compare equal
came earlier in the original list only when `insertByPrio` is folded from
the right, which `sortByPrio` does). -/
def insertByPrio (x : Nat × String) : List (Nat × String) → List (Nat × String)
  | [] => [x]
  | y :: ys => if x.1 ≤ y.1 then x :: y :: ys else y :: insertByPrio x ys

/-- `all_items.sort(key=lambda x: x[0])` — Python's sort is stable, and a
stable sort by key is a unique function of its input, so stable insertion
sort is an exact model of it. -/
def sortByPrio : List (Nat × String) → List (Nat × String)
  | [] => []
  | x :: xs => insertByPrio x (sortByPrio xs)

/-- The observable events of the tail of `run_once`, in program order:
persist the state, write the two exports, then notify iff `new_items` is
non-empty. -/
inductive Event where
  | saveState : NState → Event
  | exportAll : List String → Event
  | exportNew : List String → Event
  | notify : String → Event
deriving DecidableEq, Repr

def isSave : Event → Bool
  | .saveState _ => true
  | _ => false

def isNotify : Event → Bool
  | .notify _ => true
  | _ => false

/-- The Telegram message body built from the sorted new items. -/
def notifyBody (new_items : List (Nat × String)) : String :=
  let kjpp := (new_items.filter (fun p => p.1 = 0)).map Prod.snd
  let related := (new_items.filter (fun p => p.1 = 1)).map Prod.snd
  "🆕 **Neue KJPP-Stellen**\n\n" ++
  (if kjpp ≠ [] then
    "**👨‍⚕️ KJPP-Arztstellen:**\n" ++ String.intercalate "\n" kjpp ++ "\n\n"
   else "") ++
  (if related ≠ [] then
    "**💼 Verwandte Positionen:**\n" ++ String.intercalate "\n" related
   else "")

/-- One run of `run_once` over already-extracted per-source candidate
lists: the sorted `all_items` and `new_items` and the final state. -/
def run_once_core (st0 : NState) (now : Nat) (sources : List (List Item)) :
    List (Nat × String) × List (Nat × String) × NState :=
  let r := runSources now st0 sources
  (sortByPrio r.1, sortByPrio r.2.1, r.2.2)

/-- The event trace of the tail of `run_once`: `save_state(state)` comes
first, then the two `write_txt` exports, then — only if `new_items` is
non-empty — the Telegram notification. -/
def run_events (st0 : NState) (now : Nat) (sources : List (List Item)) :
    List Event :=
  let r := run_once_core st0 now sources
  [Event.saveState r.2.2,
   Event.exportAll (r.1.map Prod.snd),
   Event.exportNew (r.2.1.map Prod.snd)] ++
  (if r.2.1 ≠ [] then [Event.notify (notifyBody r.2.1)] else [])

/-- Does an event satisfying `p` occur strictly before one satisfying `q`? -/
def eventBefore (p q : Event → Bool) : List Event → Bool
  | [] => false
  | e :: rest => (p e && rest.any q) || eventBefore p q rest

/-! ## Helper lemmas -/

theorem classify_hit_cases (t u : String) :
    classify_hit t u = "KJPP" ∨ classify_hit t u = "RELATED" ∨
    classify_hit t u = "OTHER" := by
  simp only [classify_hit]
  split
  · exact Or.inl rfl
  · split
    · exact Or.inr (Or.inl rfl)
    · exact Or.inr (Or.inr rfl)

theorem mem_insertByPrio (x a : Nat × String) (l : List (Nat × String)) :
    a ∈ insertByPrio x l ↔ a = x ∨ a ∈ l := by
  induction l with
  | nil => simp [insertByPrio]
  | cons y ys ih =>
      simp only [insertByPrio]
      split
      · simp [or_comm, or_assoc, or_left_comm]
      · simp [ih, or_comm, or_assoc, or_left_comm]

theorem mem_sortByPrio (a : Nat × String) (l : List (Nat × String)) :
    a ∈ sortByPrio l ↔ a ∈ l := by
  induction l with
  | nil => simp [sortByPrio]
  | cons x xs ih => simp [sortByPrio, mem_insertByPrio, ih]

theorem length_insertByPrio (x : Nat × String) (l : List (Nat × String)) :
    (insertByPrio x l).length = l.length + 1 := by
  induction l with
  | nil => rfl
  | cons y ys ih =>
      simp only [insertByPrio]
      split
      · simp
      · simp [ih]

theorem length_sortByPrio (l : List (Nat × String)) :
    (sortByPrio l).length = l.length := by
  induction l with
  | nil => rfl
  | cons x xs ih => simp [sortByPrio, length_insertByPrio, ih]

theorem sortByPrio_eq_nil_iff (l : List (Nat × String)) :
    sortByPrio l = [] ↔ l = [] := by
  constructor
  · intro h
    have := length_sortByPrio l
    rw [h] at this
    exact List.length_eq_zero.mp this.symm
  · intro h; subst h; rfl

/-- The `seen` set after the dedup loop has processed `l`. -/
def collectKeys (seen : List String) : List Item → List String
  | [] => seen
  | it :: rest =>
      if dedupKey it ∈ seen then collectKeys seen rest
      else collectKeys (dedupKey it :: seen) rest

theorem mem_collectKeys (k : String) (l : List Item) :
    ∀ seen, k ∈ collectKeys seen l ↔ k ∈ seen ∨ k ∈ l.map dedupKey := by
  induction l with
  | nil => intro seen; simp [collectKeys]
  | cons it rest ih =>
      intro seen
      simp only [collectKeys]
      split
      · rename_i hmem
        rw [ih]
        simp only [List.map_cons, List.mem_cons]
        constructor
        · rintro (h | h)
          · exact Or.inl h
          · exact Or.inr (Or.inr h)
        · rintro (h | h | h)
          · exact Or.inl h
          · exact Or.inl (h ▸ hmem)
          · exact Or.inr h
      · rw [ih]
        simp only [List.mem_cons, List.map_cons]
        constructor
        · rintro ((h | h) | h)
          · exact Or.inr (Or.inl h)
          · exact Or.inl h
          · exact Or.inr (Or.inr h)
        · rintro (h | h | h)
          · exact Or.inl (Or.inr h)
          · exact Or.inl (Or.inl h)
          · exact Or.inr h

theorem dedupGo_append (l1 l2 : List Item) :
    ∀ seen, dedupGo seen (l1 ++ l2) =
      dedupGo seen l1 ++ dedupGo (collectKeys seen l1) l2 := by
  induction l1 with
  | nil => intro seen; simp [dedupGo, collectKeys]
  | cons it rest ih =>
      intro seen
      simp only [List.cons_append, dedupGo, collectKeys]
      split
      · exact ih seen
      · simp [ih (dedupKey it :: seen)]

theorem dedupGo_eq_nil (l : List Item) :
    ∀ seen, (∀ it ∈ l, dedupKey it ∈ seen) → dedupGo seen l = [] := by
  induction l with
  | nil => intro seen _; rfl
  | cons it rest ih =>
      intro seen h
      simp only [dedupGo]
      rw [if_pos (h it (List.mem_cons_self it rest))]
      exact ih seen (fun x hx => h x (List.mem_cons_of_mem it hx))

theorem dedup_double (l : List Item) : dedup (l ++ l) = dedup l := by
  unfold dedup
  rw [dedupGo_append]
  rw [dedupGo_eq_nil l (collectKeys [] l)
    (fun it hit => (mem_collectKeys (dedupKey it) l []).mpr
      (Or.inr (List.mem_map_of_mem dedupKey hit)))]
  simp

theorem dedupGo_sublist (l : List Item) :
    ∀ seen, (dedupGo seen l).Sublist l := by
  induction l with
  | nil => intro seen; simp [dedupGo]
  | cons it rest ih =>
      intro seen
      simp only [dedupGo]
      split
      · exact (ih seen).cons it
      · exact (ih (dedupKey it :: seen)).cons₂ it

theorem dedupGo_keys_nodup (l : List Item) :
    ∀ seen, ((dedupGo seen l).map dedupKey).Nodup ∧
      (∀ it ∈ dedupGo seen l, dedupKey it ∉ seen) := by
  induction l with
  | nil => intro seen; simp [dedupGo]
  | cons it rest ih =>
      intro seen
      simp only [dedupGo]
      split
      · rename_i hmem
        exact ⟨(ih seen).1, (ih seen).2⟩
      · rename_i hmem
        obtain ⟨hnd, hout⟩ := ih (dedupKey it :: seen)
        refine ⟨?_, ?_⟩
        · simp only [List.map_cons, List.nodup_cons]
          refine ⟨?_, hnd⟩
          intro hk
          obtain ⟨x, hx, hkx⟩ := List.mem_map.mp hk
          have hin : dedupKey x ∈ dedupKey it :: seen := by
            rw [hkx]; exact List.mem_cons_self _ _
          exact hout x hx hin
        · intro x hx
          rcases List.mem_cons.mp hx with h | h
          · subst h; exact hmem
          · intro hc
            have hin : dedupKey x ∈ dedupKey it :: seen :=
              List.mem_cons_of_mem _ hc
            exact hout x h hin

theorem dedupGo_find? (l : List Item) (k : String) :
    ∀ seen, (k ∈ seen →
        (dedupGo seen l).find? (fun it => dedupKey it == k) = none) ∧
      (k ∉ seen →
        (dedupGo seen l).find? (fun it => dedupKey it == k) =
          l.find? (fun it => dedupKey it == k)) := by
  induction l with
  | nil => intro seen; simp [dedupGo]
  | cons it rest ih =>
      intro seen
      constructor
      · intro hk
        simp only [dedupGo]
        split
        · exact (ih seen).1 hk
        · rename_i hmem
          have hne : dedupKey it ≠ k := fun h => hmem (h ▸ hk)
          rw [List.find?_cons_of_neg _ (by simpa using hne)]
          exact (ih (dedupKey it :: seen)).1 (List.mem_cons_of_mem _ hk)
      · intro hk
        simp only [dedupGo]
        split
        · rename_i hmem
          have hne : dedupKey it ≠ k := fun h => hk (h ▸ hmem)
          rw [List.find?_cons_of_neg _ (by simpa using hne)]
          exact (ih seen).2 hk
        · rename_i hmem
          by_cases hek : dedupKey it = k
          · rw [List.find?_cons_of_pos _ (by simpa using hek),
                List.find?_cons_of_pos _ (by simpa using hek)]
          · rw [List.find?_cons_of_neg _ (by simpa using hek),
                List.find?_cons_of_neg _ (by simpa using hek)]
            exact (ih (dedupKey it :: seen)).2
              (by
                intro hc
                rcases List.mem_cons.mp hc with h | h
                · exact hek h.symm
                · exact hk h)

/-! ### Run-model helper lemmas -/

theorem stLookup_append (st e : NState) (k : String) (v : Nat)
    (h : stLookup st k = some v) : stLookup (st ++ e) k = some v := by
  induction st with
  | nil => simp [stLookup] at h
  | cons p ps ih =>
      obtain ⟨k', v'⟩ := p
      simp only [stLookup, List.cons_append] at h ⊢
      split at h
      · rename_i hk; rw [if_pos hk]; exact h
      · rename_i hk; rw [if_neg hk]; exact ih h

theorem newPass_state (now : Nat) (fl : List (Item × String)) :
    ∀ st, ∃ e, (newPass now st fl).2 = st ++ e := by
  induction fl with
  | nil => intro st; exact ⟨[], by simp [newPass]⟩
  | cons p rest ih =>
      intro st
      obtain ⟨c, label⟩ := p
      simp only [newPass]
      split
      · obtain ⟨e, he⟩ := ih (st ++ [(make_id c.href c.title, now)])
        exact ⟨[(make_id c.href c.title, now)] ++ e, by
          simp only [he, List.append_assoc]⟩
      · exact ih st

theorem allLines_cons (c : Item) (label : String) (rest : List (Item × String)) :
    allLines ((c, label) :: rest) =
      (prioOf label, fmtLine label c) :: allLines rest := rfl

theorem allLines_prio (fl : List (Item × String)) :
    ∀ x ∈ allLines fl, x.1 = 0 ∨ x.1 = 1 := by
  intro x hx
  obtain ⟨⟨c, label⟩, _, hfx⟩ := List.mem_map.mp hx
  rw [← hfx]
  simp only [prioOf]
  split
  · exact Or.inl rfl
  · exact Or.inr rfl

theorem newPass_lines_sub (now : Nat) (fl : List (Item × String)) :
    ∀ st, ∀ x ∈ (newPass now st fl).1, x ∈ allLines fl := by
  induction fl with
  | nil => intro st x hx; simp [newPass] at hx
  | cons p rest ih =>
      intro st x hx
      obtain ⟨c, label⟩ := p
      simp only [newPass] at hx
      rw [allLines_cons]
      split at hx
      · rcases List.mem_cons.mp hx with h | h
        · exact h ▸ List.mem_cons_self _ _
        · exact List.mem_cons_of_mem _
            (ih (st ++ [(make_id c.href c.title, now)]) x h)
      · exact List.mem_cons_of_mem _ (ih st x hx)

theorem runSources_state (now : Nat) (srcs : List (List Item)) :
    ∀ st, ∃ e, (runSources now st srcs).2.2 = st ++ e := by
  induction srcs with
  | nil => intro st; exact ⟨[], by simp [runSources]⟩
  | cons cands rest ih =>
      intro st
      simp only [runSources]
      obtain ⟨e1, he1⟩ := newPass_state now (classifyFilter cands) st
      obtain ⟨e2, he2⟩ := ih (newPass now st (classifyFilter cands)).2
      exact ⟨e1 ++ e2, by rw [he2, he1, List.append_assoc]⟩

theorem runSources_new_sub_all (now : Nat) (srcs : List (List Item)) :
    ∀ st, ∀ x ∈ (runSources now st srcs).2.1, x ∈ (runSources now st srcs).1 := by
  induction srcs with
  | nil => intro st x hx; simp [runSources] at hx
  | cons cands rest ih =>
      intro st x hx
      simp only [runSources] at hx ⊢
      rcases List.mem_append.mp hx with h | h
      · exact List.mem_append.mpr
          (Or.inl (newPass_lines_sub now (classifyFilter cands) st x h))
      · exact List.mem_append.mpr
          (Or.inr (ih (newPass now st (classifyFilter cands)).2 x h))

theorem runSources_all_prio (now : Nat) (srcs : List (List Item)) :
    ∀ st, ∀ x ∈ (runSources now st srcs).1, x.1 = 0 ∨ x.1 = 1 := by
  induction srcs with
  | nil => intro st x hx; simp [runSources] at hx
  | cons cands rest ih =>
      intro st x hx
      simp only [runSources] at hx
      rcases List.mem_append.mp hx with h | h
      · exact allLines_prio (classifyFilter cands) x h
      · exact ih (newPass now st (classifyFilter cands)).2 x h

theorem classify_hit_relevant (t u : String) (hrel : classify_hit t u ≠ "OTHER") :
    classify_hit t u = "KJPP" ∨ classify_hit t u = "RELATED" := by
  rcases classify_hit_cases t u with h | h | h
  · exact Or.inl h
  · exact Or.inr h
  · exact absurd h hrel

theorem classifyFilter_single (c : Item)
    (hrel : classify_hit c.title c.href ≠ "OTHER") :
    classifyFilter [c] = [(c, classify_hit c.title c.href)] := by
  simp only [classifyFilter, List.filterMap_cons, List.filterMap_nil]
  rw [if_pos (classify_hit_relevant c.title c.href hrel)]

theorem newPass_single (now : Nat) (st : NState) (c : Item) (label : String) :
    newPass now st [(c, label)] =
      if stLookup st (make_id c.href c.title) = none then
        ([(prioOf label, fmtLine label c)], st ++ [(make_id c.href c.title, now)])
      else ([], st) := by
  simp only [newPass]

theorem runSources_single (st : NState) (now : Nat) (cands : List Item) :
    runSources now st [cands] =
      (allLines (classifyFilter cands),
       (newPass now st (classifyFilter cands)).1,
       (newPass now st (classifyFilter cands)).2) := by
  simp [runSources]

theorem run_once_core_single_new (st : NState) (now : Nat) (c : Item)
    (hrel : classify_hit c.title c.href ≠ "OTHER")
    (hnew : stLookup st (make_id c.href c.title) = none) :
    run_once_core st now [[c]] =
      ([(prioOf (classify_hit c.title c.href),
         fmtLine (classify_hit c.title c.href) c)],
       [(prioOf (classify_hit c.title c.href),
         fmtLine (classify_hit c.title c.href) c)],
       st ++ [(make_id c.href c.title, now)]) := by
  simp only [run_once_core, runSources_single, classifyFilter_single c hrel,
    newPass_single, if_pos hnew, allLines_cons]
  rfl

theorem run_once_core_single_seen (st : NState) (now : Nat) (c : Item)
    (hrel : classify_hit c.title c.href ≠ "OTHER") (v : Nat)
    (hseen : stLookup st (make_id c.href c.title) = some v) :
    run_once_core st now [[c]] =
      ([(prioOf (classify_hit c.title c.href),
         fmtLine (classify_hit c.title c.href) c)],
       [], st) := by
  have hne : ¬ stLookup st (make_id c.href c.title) = none := by
    rw [hseen]; simp
  simp only [run_once_core, runSources_single, classifyFilter_single c hrel,
    newPass_single, if_neg hne, allLines_cons]
  rfl

/-! ### Crawl-loop helper lemmas -/

theorem crawlLoop_self_next (site : String → Option PageResult)
    (url : String) (items : List Item) (fuel : Nat)
    (hself : site url = some ⟨items, some url⟩) :
    crawlLoop site (fuel + 1) url = (items, 1) := by
  simp only [crawlLoop, hself]
  rw [if_neg (fun h => h rfl)]

theorem crawlLoop_fresh_count (site : String → Option PageResult)
    (hfresh : ∀ u, ∃ its nxt, site u = some ⟨its, some nxt⟩ ∧ nxt ≠ u) :
    ∀ fuel url, (crawlLoop site fuel url).2 = fuel := by
  intro fuel
  induction fuel with
  | zero => intro url; rfl
  | succ n ih =>
      intro url
      obtain ⟨its, nxt, hs, hne⟩ := hfresh url
      simp only [crawlLoop, hs]
      rw [if_pos hne]
      simp [ih nxt]

/-- The worked example of the spec: a candidate whose title matches the
strict physician pattern. -/
def cAssi : Item :=
  ⟨"https://x.test/jobs/1", "Assistenzarzt (m/w/d) Kinder- und Jugendpsychiatrie"⟩

/-! ## Claim theorems -/

/-- Claim C1 (counterexample): the classifier does not evaluate an
exclusion check first — the spec's own fixture title matches the
spec-modelled denylist (noise word `niederlassung`), yet `classify_hit`
returns the strict-branch label `"KJPP"`, not `"EXCLUDED"` (and not
`"IRRELEVANT"` either): there is no four-label hierarchy. -/
theorem classify_exclusion_hierarchy_fails :
    spec_excluded "Facharzt Kinder- und Jugendpsychiatrie Niederlassungsberatung" "" = true ∧
    classify_hit "Facharzt Kinder- und Jugendpsychiatrie Niederlassungsberatung" "" = "KJPP" ∧
    classify_hit "Facharzt Kinder- und Jugendpsychiatrie Niederlassungsberatung" "" ≠ "EXCLUDED" ∧
    classify_hit "Facharzt Kinder- und Jugendpsychiatrie Niederlassungsberatung" "" ≠ "IRRELEVANT" := by
  refine ⟨by decide, by decide, by decide, by decide⟩

/-- Claim C1 (amended): `classify_hit` is a pure deterministic function
assigning exactly one of THREE mutually exclusive labels (`"KJPP"`,
`"RELATED"`, `"OTHER"`) by first-match evaluation: strict role+specialty
co-occurrence first, then the broad keyword taxonomy, else `"OTHER"`;
there is no exclusion branch. -/
theorem classify_three_labels_first_match (t u : String) :
    (classify_hit t u = "KJPP" ∨ classify_hit t u = "RELATED" ∨
      classify_hit t u = "OTHER") ∧
    (classify_hit t u = "KJPP" ↔
      rsearch STRICT_KJPP_RE (pyLower (t ++ " " ++ u)) = true) ∧
    (classify_hit t u = "RELATED" ↔
      (rsearch STRICT_KJPP_RE (pyLower (t ++ " " ++ u)) = false ∧
       rsearch KEYWORDS_RE (pyLower (t ++ " " ++ u)) = true)) ∧
    (classify_hit t u = "OTHER" ↔
      (rsearch STRICT_KJPP_RE (pyLower (t ++ " " ++ u)) = false ∧
       rsearch KEYWORDS_RE (pyLower (t ++ " " ++ u)) = false)) := by
  cases hs : rsearch STRICT_KJPP_RE (pyLower (t ++ " " ++ u)) <;>
    cases hk : rsearch KEYWORDS_RE (pyLower (t ++ " " ++ u)) <;>
      simp [classify_hit, hs, hk]

/-- Claim C2 (counterexample): the fixture title the claim says must
classify `EXCLUDED` actually classifies `"KJPP"`. -/
theorem classify_excluded_dominance_fails :
    classify_hit "Facharzt Kinder- und Jugendpsychiatrie Niederlassungsberatung" "" = "KJPP" ∧
    ¬ classify_hit "Facharzt Kinder- und Jugendpsychiatrie Niederlassungsberatung" ""
        = "EXCLUDED" := by
  refine ⟨by decide, by decide⟩

/-- Claim C2 (amended): the classifier has no exclusion branch at all — no
input ever yields `"EXCLUDED"`; in particular the fixture title, although
it matches the spec-modelled denylist, classifies `"KJPP"` because the
strict pattern wins. -/
theorem classify_never_excluded :
    (∀ t u : String, classify_hit t u ≠ "EXCLUDED") ∧
    spec_excluded "Facharzt Kinder- und Jugendpsychiatrie Niederlassungsberatung" "" = true ∧
    classify_hit "Facharzt Kinder- und Jugendpsychiatrie Niederlassungsberatung" "" = "KJPP" := by
  refine ⟨?_, by decide, by decide⟩
  intro t u
  rcases classify_hit_cases t u with h | h | h <;> rw [h] <;> decide

/-- Claim C3 (counterexample): the empty-body single-source scenario — the
page oracle returns an empty extraction with no next link, the parser
yields no candidates, and the run's exports contain NO line at all (in
particular no priority-2 warning line), with no notification event. -/
theorem failed_source_yields_no_warning_line :
    parse_kvboerse_search (fun _ => some ⟨[], none⟩)
      "https://kvboerse.example/search" MAX_PAGES = [] ∧
    (run_once_core [] 0 [[]]).1 = [] ∧
    (run_once_core [] 0 [[]]).2.1 = [] ∧
    run_events [] 0 [[]] =
      [Event.saveState [], Event.exportAll [], Event.exportNew []] := by
  refine ⟨by decide, rfl, rfl, by decide⟩

/-- Claim C3 (amended): no warning line is ever produced — every line of
either export has priority 0 or 1 (never the claimed priority 2), and a
run with no new items sends no notification. -/
theorem export_lines_priority_at_most_one (st0 : NState) (now : Nat)
    (sources : List (List Item)) :
    (∀ pl ∈ (run_once_core st0 now sources).1, pl.1 = 0 ∨ pl.1 = 1) ∧
    (∀ pl ∈ (run_once_core st0 now sources).2.1, pl.1 = 0 ∨ pl.1 = 1) ∧
    ((run_once_core st0 now sources).2.1 = [] →
      (run_events st0 now sources).any isNotify = false) := by
  refine ⟨?_, ?_, ?_⟩
  · intro pl hpl
    exact runSources_all_prio now sources st0 pl
      ((mem_sortByPrio pl _).mp hpl)
  · intro pl hpl
    exact runSources_all_prio now sources st0 pl
      (runSources_new_sub_all now sources st0 pl
        ((mem_sortByPrio pl _).mp hpl))
  · intro hnew
    simp only [run_events]
    rw [if_neg (fun hc => hc hnew)]
    rfl

/-- Witness for C3's amended theorem: a concrete exported line of a
physician hit has priority 0 ≤ 1, and the empty run notifies nobody. -/
theorem export_lines_priority_at_most_one_witness :
    ((prioOf "KJPP", fmtLine "KJPP" cAssi).1 = 0 ∨
      (prioOf "KJPP", fmtLine "KJPP" cAssi).1 = 1) ∧
    (run_events [] 0 [[]]).any isNotify = false :=
  ⟨(export_lines_priority_at_most_one [] 0 [[cAssi]]).1
      (prioOf "KJPP", fmtLine "KJPP" cAssi) (by decide),
   (export_lines_priority_at_most_one [] 0 [[]]).2.2 rfl⟩

/-- Claim C4: an identity recorded by one run (from `(href, title)`) is
not reported as new by a later run on the same pair; a pair with the same
`href` but a title yielding a different identity is reported again.
(Identity is the truncated SHA-256 of `href + "|" + title`, so a changed
title gives a distinct identity up to hash collision; the distinctness is
a hypothesis here, verified concretely in the witness.) -/
theorem roundtrip_novelty (h t t2 : String) (now1 now2 : Nat)
    (hrel : classify_hit t h ≠ "OTHER")
    (hrel2 : classify_hit t2 h ≠ "OTHER")
    (hdiff : make_id h t2 ≠ make_id h t) :
    (run_once_core ((run_once_core [] now1 [[⟨h, t⟩]]).2.2) now2
        [[⟨h, t⟩]]).2.1 = [] ∧
    (run_once_core ((run_once_core [] now1 [[⟨h, t⟩]]).2.2) now2
        [[⟨h, t2⟩]]).2.1 ≠ [] := by
  have hst : (run_once_core [] now1 [[⟨h, t⟩]]).2.2 = [(make_id h t, now1)] := by
    rw [run_once_core_single_new [] now1 ⟨h, t⟩ hrel rfl]
    simp
  have hseen : stLookup [(make_id h t, now1)] (make_id h t) = some now1 := by
    simp [stLookup]
  have hnone2 : stLookup [(make_id h t, now1)] (make_id h t2) = none := by
    simp only [stLookup]
    rw [if_neg (fun hh => hdiff hh.symm)]
  constructor
  · rw [hst, run_once_core_single_seen [(make_id h t, now1)] now2 ⟨h, t⟩
      hrel now1 hseen]
  · rw [hst, run_once_core_single_new [(make_id h t, now1)] now2 ⟨h, t2⟩
      hrel2 hnone2]
    simp

/-- Witness for C4 at the spec's worked example: same pair not re-reported,
re-titled posting re-reported. -/
theorem roundtrip_novelty_witness :
    (run_once_core ((run_once_core [] 1
        [[⟨"https://x.test/jobs/1",
           "Assistenzarzt (m/w/d) Kinder- und Jugendpsychiatrie"⟩]]).2.2) 2
      [[⟨"https://x.test/jobs/1",
         "Assistenzarzt (m/w/d) Kinder- und Jugendpsychiatrie"⟩]]).2.1 = [] ∧
    (run_once_core ((run_once_core [] 1
        [[⟨"https://x.test/jobs/1",
           "Assistenzarzt (m/w/d) Kinder- und Jugendpsychiatrie"⟩]]).2.2) 2
      [[⟨"https://x.test/jobs/1",
         "Assistenzarzt (m/w/d) Kinder- und Jugendpsychiatrie (Vollzeit)"⟩]]).2.1 ≠ [] :=
  roundtrip_novelty "https://x.test/jobs/1"
    "Assistenzarzt (m/w/d) Kinder- und Jugendpsychiatrie"
    "Assistenzarzt (m/w/d) Kinder- und Jugendpsychiatrie (Vollzeit)"
    1 2 (by decide) (by decide) (by decide)

/-- Claim C5: the crawl loop fetches exactly one page when the discovered
next link equals the current URL, and exactly `MAX_PAGES = 10` pages when
every page yields a fresh next link. -/
theorem crawl_page_bound (site1 site2 : String → Option PageResult)
    (url1 url2 : String) (items : List Item)
    (hself : site1 url1 = some ⟨items, some url1⟩)
    (hfresh : ∀ u, ∃ its nxt, site2 u = some ⟨its, some nxt⟩ ∧ nxt ≠ u) :
    crawlLoop site1 MAX_PAGES url1 = (items, 1) ∧
    (crawlLoop site2 MAX_PAGES url2).2 = MAX_PAGES := by
  constructor
  · exact crawlLoop_self_next site1 url1 items 9 hself
  · exact crawlLoop_fresh_count site2 hfresh MAX_PAGES url2

/-- Witness for C5: a concrete self-looping site stops at one page; a
concrete always-fresh site is crawled for exactly ten pages. -/
theorem crawl_page_bound_witness :
    crawlLoop (fun u => some ⟨[], some u⟩) MAX_PAGES
        "https://kvboerse.example/search" = ([], 1) ∧
    (crawlLoop (fun u => some ⟨[], some (u ++ "x")⟩) MAX_PAGES "a").2 =
      MAX_PAGES :=
  crawl_page_bound (fun u => some ⟨[], some u⟩)
    (fun u => some ⟨[], some (u ++ "x")⟩)
    "https://kvboerse.example/search" "a" [] rfl
    (fun u => ⟨[], u ++ "x", rfl, by
      intro hh
      have hl := congrArg String.length hh
      simp [String.length_append] at hl
      exact absurd hl (by decide)⟩)

theorem crawlLoop_step_fresh (site : String → Option PageResult)
    (url : String) (items : List Item) (nxt : String) (fuel : Nat)
    (hs : site url = some ⟨items, some nxt⟩) (hne : nxt ≠ url) :
    crawlLoop site (fuel + 1) url =
      (items ++ (crawlLoop site fuel nxt).1,
       (crawlLoop site fuel nxt).2 + 1) := by
  simp only [crawlLoop, hs]
  rw [if_pos hne]

theorem crawlLoop_last_page (site : String → Option PageResult)
    (url : String) (items : List Item) (fuel : Nat)
    (hs : site url = some ⟨items, none⟩) :
    crawlLoop site (fuel + 1) url = (items, 1) := by
  simp only [crawlLoop, hs]

theorem crawl_two_pages (l : List Item) (fuel : Nat) :
    crawlLoop
      (fun u => if u = "page1" then some ⟨l, some "page2"⟩ else some ⟨l, none⟩)
      (fuel + 2) "page1" = (l ++ l, 2) := by
  rw [crawlLoop_step_fresh
      (fun u => if u = "page1" then some ⟨l, some "page2"⟩ else some ⟨l, none⟩)
      "page1" l "page2" (fuel + 1) (by simp) (by simp),
    crawlLoop_last_page
      (fun u => if u = "page1" then some ⟨l, some "page2"⟩ else some ⟨l, none⟩)
      "page2" l fuel (by simp)]

/-- Claim C6: deduplication is idempotent over repeated extraction — for
any extractor output `l`, deduplicating the doubled list gives exactly
(and hence a set of the same size as) deduplicating the single list; a
crawl that sees the same page content twice parses to the same unique set
as a single page. -/
theorem dedup_idempotent (l : List Item) :
    dedup (l ++ l) = dedup l ∧
    (dedup (l ++ l)).length = (dedup l).length ∧
    parse_kvboerse_search
      (fun u => if u = "page1" then some ⟨l, some "page2"⟩ else some ⟨l, none⟩)
      "page1" MAX_PAGES = dedup l := by
  refine ⟨dedup_double l, by rw [dedup_double l], ?_⟩
  show dedup (crawlLoop _ (8 + 2) "page1").1 = dedup l
  rw [crawl_two_pages l 8]
  exact dedup_double l

/-- Claim C7: the novelty state grows monotonically within a run — the
persisted state extends the loaded state, and every loaded entry is
present unchanged at run end. -/
theorem state_monotone_within_run (st0 : NState) (now : Nat)
    (sources : List (List Item)) :
    (∃ e, (run_once_core st0 now sources).2.2 = st0 ++ e) ∧
    ∀ k v, stLookup st0 k = some v →
      stLookup ((run_once_core st0 now sources).2.2) k = some v := by
  have h := runSources_state now sources st0
  constructor
  · exact h
  · intro k v hkv
    obtain ⟨e, he⟩ := h
    have he2 : (run_once_core st0 now sources).2.2 = st0 ++ e := he
    rw [he2]
    exact stLookup_append st0 e k v hkv

/-- Witness for C7: a concrete preloaded entry survives a run unchanged. -/
theorem state_monotone_within_run_witness :
    stLookup ((run_once_core [("0123456789abcdef01234567", 5)] 7 [[]]).2.2)
      "0123456789abcdef01234567" = some 5 :=
  (state_monotone_within_run [("0123456789abcdef01234567", 5)] 7 [[]]).2
    "0123456789abcdef01234567" 5 (by decide)

/-- Claim C8 (counterexample): a concrete run that produces a new item and
sends a notification — yet the notification does NOT occur before the
state persist: `save_state` is the first event of the run tail. -/
theorem notify_not_before_save_concrete :
    (run_once_core [] 0 [[cAssi]]).2.1 ≠ [] ∧
    (run_events [] 0 [[cAssi]]).any isNotify = true ∧
    eventBefore isNotify isSave (run_events [] 0 [[cAssi]]) = false := by
  refine ⟨by decide, by decide, by decide⟩

/-- Claim C8 (amended): in every run that produces new items the order is
the opposite of the claim — the state is persisted first (`save_state` is
the head event) and the notification is sent afterwards, so the
notification always follows persistence. -/
theorem save_before_notify (st0 : NState) (now : Nat)
    (sources : List (List Item))
    (hnew : (run_once_core st0 now sources).2.1 ≠ []) :
    eventBefore isSave isNotify (run_events st0 now sources) = true ∧
    (run_events st0 now sources).any isNotify = true ∧
    (run_events st0 now sources).head? =
      some (Event.saveState ((run_once_core st0 now sources).2.2)) := by
  simp only [run_events]
  rw [if_pos hnew]
  exact ⟨rfl, rfl, rfl⟩

/-- Witness for C8's amended theorem at a concrete run with one new item. -/
theorem save_before_notify_witness :
    eventBefore isSave isNotify (run_events [] 0 [[cAssi]]) = true ∧
    (run_events [] 0 [[cAssi]]).any isNotify = true ∧
    (run_events [] 0 [[cAssi]]).head? =
      some (Event.saveState ((run_once_core [] 0 [[cAssi]]).2.2)) :=
  save_before_notify [] 0 [[cAssi]] (by decide)

/-- Claim C9: every line of the new-results export also appears, with the
same priority and text, in the all-results export. -/
theorem new_export_subset_all (st0 : NState) (now : Nat)
    (sources : List (List Item)) :
    ∀ pl ∈ (run_once_core st0 now sources).2.1,
      pl ∈ (run_once_core st0 now sources).1 := by
  intro pl hpl
  exact (mem_sortByPrio pl _).mpr
    (runSources_new_sub_all now sources st0 pl ((mem_sortByPrio pl _).mp hpl))

/-- Witness for C9: the concrete new-item line of a one-candidate run is
in the all-results list. -/
theorem new_export_subset_all_witness :
    (prioOf "KJPP", fmtLine "KJPP" cAssi) ∈ (run_once_core [] 0 [[cAssi]]).1 :=
  new_export_subset_all [] 0 [[cAssi]] (prioOf "KJPP", fmtLine "KJPP" cAssi)
    (by decide)

/-- Claim C10: deduplication keeps exactly the first occurrence of each
distinct key, in input order — the output is a sublist of the input (order
preserved), its keys are pairwise distinct, the first occurrence of any
key in the output equals the first occurrence in the input, and every
input key is represented. -/
theorem dedup_keeps_first_occurrences (l : List Item) :
    (dedup l).Sublist l ∧
    ((dedup l).map dedupKey).Nodup ∧
    (∀ k : String, (dedup l).find? (fun it => dedupKey it == k) =
      l.find? (fun it => dedupKey it == k)) ∧
    (∀ k : String, k ∈ l.map dedupKey → k ∈ (dedup l).map dedupKey) := by
  refine ⟨dedupGo_sublist l [], (dedupGo_keys_nodup l []).1, ?_, ?_⟩
  · intro k
    exact (dedupGo_find? l k []).2 (by simp)
  · intro k hk
    obtain ⟨it, hit, hkey⟩ := List.mem_map.mp hk
    have hfind : (l.find? (fun x => dedupKey x == k)).isSome :=
      List.find?_isSome.mpr ⟨it, hit, by simp [hkey]⟩
    have hfind2 : ((dedup l).find? (fun x => dedupKey x == k)).isSome := by
      rw [show (dedup l).find? (fun x => dedupKey x == k)
            = l.find? (fun x => dedupKey x == k) from
          (dedupGo_find? l k []).2 (by simp)]
      exact hfind
    obtain ⟨it2, hit2⟩ := Option.isSome_iff_exists.mp hfind2
    have hmem2 : it2 ∈ dedup l := List.mem_of_find?_eq_some hit2
    have hkey2 : dedupKey it2 = k := by
      have := List.find?_some hit2
      simpa using this
    exact List.mem_map.mpr ⟨it2, hmem2, hkey2⟩

/-- Witness for C10: a concrete key of a duplicated input is represented
in the deduplicated output. -/
theorem dedup_keeps_first_occurrences_witness :
    "u|t" ∈ (dedup [⟨"u", "t"⟩, ⟨"u", "t"⟩, ⟨"u", "s"⟩]).map dedupKey :=
  (dedup_keeps_first_occurrences [⟨"u", "t"⟩, ⟨"u", "t"⟩, ⟨"u", "s"⟩]).2.2.2
    "u|t" (by decide)

end KJPP
